import Mathlib

/-!
Shallow embedding of `monexif/monexif.py` (brownterryn/monexif): the
observation-grouping / field-merge engine (`set_related`, `unset_related`),
record ingestion (`add_images`) and the tabular-to-relational sync layer
(`xlsx_to_sqlite`, `sqlite_to_xlsx`), together with theorems about them.

Modelling conventions:
* a SQLite cell holds a `Val` (integer or text); a cell that is SQL NULL,
  or a column absent from a row, is read as `none` - exactly how the
  Python code reads record fields, via `getattr(rec, name, None)`;
* a table row is an association list from column name to optional value;
  `setField` models `update ... set col = ?` on one row (writing NULL when
  the bound value is Python `None`); the table is the list of its rows in
  rowid (storage) order, which is also the order `select` scans them;
* the field registry `monexif_fields.yml` is data, not code, and is not
  part of the source tree; it is kept as an explicit parameter
  `defs : List FieldDef` (name, declared type, copy-on-merge flag),
  matching what `field_defs()["fields"].items()` iterates over;
* `uuid4().hex` results are explicit parameters (`fresh`, `ImgInfo`),
  freshness being a hypothesis where a theorem needs it;
* exceptions escaping `set_related` are modelled with `Except`; the error
  value carries the store as it was when the exception escaped (at every
  reachable raise site - the `obs[0]` / `obs[1]` list indexings - no
  update statement has run yet, so the carried store is the input store).
-/

namespace Monexif

/-- A SQLite storage value: the monexif columns hold text or integers. -/
inductive Val where
  | int : Int → Val
  | str : String → Val
deriving DecidableEq, Repr

/-- One table row: association list from column name to cell content;
`none` is SQL NULL (or an absent column, which the Python code reads the
same way through `getattr(rec, name, None)`). -/
abbrev Row := List (String × Option Val)

/-- The first cell bound to column `f`, if the column is present. -/
def getCell : Row → String → Option (Option Val)
  | [], _ => none
  | p :: r, f => if p.1 = f then some p.2 else getCell r f

/-- Read a field of a fetched record the way `set_related` does:
`getattr(rec, f, None)` - NULL and absent column both read as `none`. -/
def getField (r : Row) (f : String) : Option Val :=
  (getCell r f).getD none

/-- Effect of `update ... set f = ?` on one row: overwrite the column
where present (on the real table the updated column always exists; a row
that lacks it gains the cell). -/
def setField (r : Row) (f : String) (v : Option Val) : Row :=
  if (getCell r f).isSome then r.map (fun p => if p.1 = f then (f, v) else p)
  else r ++ [(f, v)]

/-- Effect of `update ... set f1 = ?, f2 = ?, ...` on one row. -/
def setFields (r : Row) (ups : List (String × Option Val)) : Row :=
  ups.foldl (fun acc p => setField acc p.1 p.2) r

/-- SQL `=` comparison: NULL compares unequal to everything. -/
def sqlEq : Option Val → Option Val → Bool
  | some x, some y => decide (x = y)
  | _, _ => false

/-- `update imgdata set ... where observation_id = ?`: rewrite every row
whose `observation_id` equals the bound value. -/
def updateWhere (store : List Row) (w : Option Val)
    (ups : List (String × Option Val)) : List Row :=
  store.map (fun r =>
    if sqlEq (getField r "observation_id") w then setFields r ups else r)

/-- One entry of the field registry `monexif_fields.yml`: a field name
with its declared storage type (yaml key `type`) and its copy-on-merge
flag (yaml key `copy`). -/
structure FieldDef where
  name : String
  ftype : String
  copy : Bool
deriving DecidableEq, Repr

/-- The `updates` dict a copy pass of `set_related` builds for one
direction: for every registry field flagged `copy` whose value on the
destination record `dst` is `None`, bind the source record's value.
Iteration order is registry order, as in Python's dict iteration. -/
def copyUpdates (defs : List FieldDef) (src dst : Row) :
    List (String × Option Val) :=
  (defs.filter (fun fd => fd.copy && (getField dst fd.name).isNone)).map
    (fun fd => (fd.name, getField src fd.name))

/-- Predicate of `select * from imgdata where observation_id in (?, ?)`. -/
def matchRow (a b : String) (r : Row) : Bool :=
  decide (getField r "observation_id" = some (Val.str a) ∨
          getField r "observation_id" = some (Val.str b))

/-- The write sequence of `set_related` once `obs[0] = r0` and
`obs[1] = r1` have been fetched: first
`update imgdata set group_id=? where observation_id=?` moving `r0` into
`r1`'s group, then the two copy passes `(from_, to) in (0, 1), (1, 0)`,
each run only `if updates:` is non-empty, reading values from the
fetched snapshot and writing `where observation_id = obs[to].observation_id`. -/
def mergeSteps (defs : List FieldDef) (store : List Row) (r0 r1 : Row) :
    List Row :=
  let s1 := updateWhere store (getField r0 "observation_id")
      [("group_id", getField r1 "group_id")]
  let ups01 := copyUpdates defs r0 r1
  let s2 := if ups01.isEmpty then s1
    else updateWhere s1 (getField r1 "observation_id") ups01
  let ups10 := copyUpdates defs r1 r0
  if ups10.isEmpty then s2
  else updateWhere s2 (getField r0 "observation_id") ups10

/-- A Python exception escaping an embedded operation. `set_related` can
only raise from the list indexings `obs[0]` / `obs[1]` when the `select`
returned fewer than two rows. -/
inductive PyErr where
  | indexError : PyErr
deriving DecidableEq, Repr

instance {ε α : Type} [DecidableEq ε] [DecidableEq α] :
    DecidableEq (Except ε α)
  | .error e, .error f =>
    if h : e = f then .isTrue (by rw [h])
    else .isFalse (fun hc => h (Except.error.inj hc))
  | .error _, .ok _ => .isFalse Except.noConfusion
  | .ok _, .error _ => .isFalse Except.noConfusion
  | .ok a, .ok b =>
    if h : a = b then .isTrue (by rw [h])
    else .isFalse (fun hc => h (Except.ok.inj hc))

/-- `set_related(con, obs_id0, obs_id1)`: fetch the two records with
`observation_id in (?, ?)` (in storage order), put the record of
`obs_id0` first (`if obs[0].observation_id != obs_id0: obs.reverse()`),
then run `mergeSteps`. The error value carries the store at raise time:
both raise sites precede every update statement. -/
def set_related (defs : List FieldDef) (store : List Row) (a b : String) :
    Except (PyErr × List Row) (List Row) :=
  let obs0 := store.filter (matchRow a b)
  match obs0.get? 0 with
  | none => .error (.indexError, store)
  | some o0 =>
    let obs := if getField o0 "observation_id" ≠ some (Val.str a)
      then obs0.reverse else obs0
    match obs.get? 0, obs.get? 1 with
    | some r0, some r1 => .ok (mergeSteps defs store r0 r1)
    | _, _ => .error (.indexError, store)

/-- `unset_related(con, obs_id)`:
`update imgdata set group_id=? where observation_id=?` with a fresh
`uuid4().hex` (the parameter `fresh`). -/
def unset_related (store : List Row) (obsId : String) (fresh : String) :
    List Row :=
  updateWhere store (some (Val.str obsId)) [("group_id", some (Val.str fresh))]

/-- What the external world supplies for one ingested image path: file
name and bytes, the EXIF fields `add_images` reads, and the two
`uuid4().hex` draws. -/
structure ImgInfo where
  name : String
  nbytes : Int
  datetimeOriginal : String
  pixelX : Val
  pixelY : Val
  hash : String
  obsUuid : String
  groupUuid : String

/-- Python `s.replace(":", "/", 2)` on the character list: replace the
first `n` colons by slashes. -/
def replaceColons : List Char → Nat → List Char
  | [], _ => []
  | c :: cs, 0 => c :: cs
  | c :: cs, n + 1 =>
    if c = ':' then '/' :: replaceColons cs n
    else c :: replaceColons cs (n + 1)

/-- `exif["datetime_original"].replace(":", "/", 2)`. -/
def imageTimeOf (s : String) : String :=
  String.mk (replaceColons s.data 2)

/-- The row dict `add_images` builds for one new image (in dict order);
columns the insert does not name stay NULL, i.e. absent here. -/
def mkRow (env : String → ImgInfo) (path : String) : Row :=
  [("image_name", some (Val.str (env path).name)),
   ("image_path", some (Val.str path)),
   ("image_bytes", some (Val.int (env path).nbytes)),
   ("image_time", some (Val.str (imageTimeOf (env path).datetimeOriginal))),
   ("image_w", some (env path).pixelX),
   ("image_h", some (env path).pixelY),
   ("image_hash", some (Val.str (env path).hash)),
   ("observation_id", some (Val.str (env path).obsUuid)),
   ("group_id", some (Val.str (env path).groupUuid)),
   ("group_number", some (Val.int 1))]

/-- `add_images(con, basedir, paths)`: for each path, skip it if
`select * from imgdata where image_path = ?` finds a row, else insert the
freshly built row. `env` stands for the filesystem / EXIF / uuid
collaborators keyed by relative path. The second component is the
function's Python return value: the body has no `return` statement, so
every call returns `None`, despite the `-> int` annotation. -/
def add_images (env : String → ImgInfo) (store : List Row)
    (paths : List String) : List Row × Option Int :=
  (paths.foldl (fun st path =>
      if st.any (fun r => sqlEq (getField r "image_path") (some (Val.str path)))
      then st
      else st ++ [mkRow env path]) store,
   none)

/-- A tabular (.xlsx) file: header row of column names, then data rows of
cells (empty cell = `none`). -/
structure Xlsx where
  header : List String
  rows : List (List (Option Val))

/-- `sqlite_to_xlsx(con, xlsx_path)`: keep the sink's header, delete all
data rows, then append `select <header fields> from imgdata` one row per
record in scan order. -/
def sqlite_to_xlsx (store : List Row) (x : Xlsx) : Xlsx :=
  { header := x.header,
    rows := store.map (fun r => x.header.map (fun f => getField r f)) }

/-- `xlsx_to_sqlite(xlsx_path, sqlite_path)`: drop and re-create
`imgdata` (columns: the header fields, then every registry field not in
the header, all NULL unless inserted), then insert one row per data row
with the header as column list. A row is therefore the header zipped
with the cells; columns the insert does not name stay NULL (absent). -/
def xlsx_to_sqlite (x : Xlsx) : List Row :=
  x.rows.map (fun row => x.header.zip row)

/-- One operation of the grouping lifecycle, for stating invariants over
operation sequences. A `merge` whose `set_related` raises leaves the
store as carried by the error (no update had run). -/
inductive Op where
  | add : (String → ImgInfo) → List String → Op
  | merge : List FieldDef → String → String → Op
  | ungroup : String → String → Op

def applyOp (store : List Row) : Op → List Row
  | .add env paths => (add_images env store paths).1
  | .merge defs a b =>
    match set_related defs store a b with
    | .ok s => s
    | .error e => e.2
  | .ungroup obsId fresh => unset_related store obsId fresh

def applyOps (store : List Row) (ops : List Op) : List Row :=
  ops.foldl applyOp store

/-- The group-closure invariant: every record has a non-null `group_id`. -/
def GroupIdInv (store : List Row) : Prop :=
  ∀ r ∈ store, getField r "group_id" ≠ none

instance (store : List Row) : Decidable (GroupIdInv store) := by
  unfold GroupIdInv; infer_instance

/-! ### Cell-level lemmas -/

theorem getCell_append_of_none {r : Row} {f : String} (s : Row)
    (h : getCell r f = none) : getCell (r ++ s) f = getCell s f := by
  induction r with
  | nil => rfl
  | cons p r ih =>
    by_cases hp : p.1 = f
    · simp [getCell, hp] at h
    · simp only [getCell, hp, if_neg, List.cons_append] at h ⊢
      exact ih h

theorem getCell_map_update_self (r : Row) (k : String) (v : Option Val) :
    getCell (r.map fun p => if p.1 = k then (k, v) else p) k =
      if (getCell r k).isSome then some v else none := by
  induction r with
  | nil => rfl
  | cons p r ih =>
    by_cases hp : p.1 = k
    · simp [getCell, hp]
    · simp [getCell, hp, ih]

theorem getCell_append_of_some {r : Row} {f : String} {w : Option Val}
    (s : Row) (h : getCell r f = some w) : getCell (r ++ s) f = some w := by
  induction r with
  | nil => cases h
  | cons p r ih =>
    by_cases hp : p.1 = f
    · simp [getCell, hp] at h ⊢; exact h
    · simp only [getCell, hp, if_neg, List.cons_append] at h ⊢
      exact ih h

theorem getCell_map_update_ne {f k : String} (r : Row) (v : Option Val)
    (h : f ≠ k) :
    getCell (r.map fun p => if p.1 = k then (k, v) else p) f = getCell r f := by
  induction r with
  | nil => rfl
  | cons p r ih =>
    simp only [List.map_cons, getCell]
    by_cases hp : p.1 = k
    · rw [if_pos hp]
      have hkf : ¬ (((k, v) : String × Option Val).1 = f) :=
        fun e => h (by simpa using e.symm)
      have hpf : ¬ (p.1 = f) := fun e => h ((hp.symm.trans e).symm)
      rw [if_neg hkf, if_neg hpf, ih]
    · rw [if_neg hp]
      by_cases hf : p.1 = f
      · rw [if_pos hf, if_pos hf]
      · rw [if_neg hf, if_neg hf, ih]

theorem getField_setField_self (r : Row) (k : String) (v : Option Val) :
    getField (setField r k v) k = v := by
  unfold setField
  by_cases h : (getCell r k).isSome
  · simp [getField, h, getCell_map_update_self]
  · have hnone : getCell r k = none := by
      cases hc : getCell r k
      · rfl
      · rw [hc] at h; simp at h
    simp [getField, h, getCell_append_of_none _ hnone, getCell]

theorem getField_setField_ne (r : Row) (k : String) (v : Option Val)
    {f : String} (h : f ≠ k) : getField (setField r k v) f = getField r f := by
  unfold setField
  by_cases hs : (getCell r k).isSome
  · simp [getField, hs, getCell_map_update_ne r v h]
  · have hkf : ¬ (k = f) := fun e => h e.symm
    cases hc : getCell r f with
    | none => simp [getField, hs, getCell_append_of_none _ hc, getCell, hkf, hc]
    | some w => simp [getField, hs, getCell_append_of_some _ hc, hc]

theorem getField_setField_pointwise {r : Row} {k : String} {v : Option Val}
    (h : getField r k = v) (f : String) :
    getField (setField r k v) f = getField r f := by
  by_cases hf : f = k
  · subst hf; rw [getField_setField_self, h]
  · exact getField_setField_ne r k v hf

/-! ### Multi-field update lemmas -/

theorem getField_setFields_not_mem {ups : List (String × Option Val)}
    {f : String} (h : f ∉ ups.map Prod.fst) (r : Row) :
    getField (setFields r ups) f = getField r f := by
  induction ups generalizing r with
  | nil => rfl
  | cons p ups ih =>
    simp only [List.map_cons, List.mem_cons, not_or] at h
    show getField (setFields (setField r p.1 p.2) ups) f = getField r f
    rw [ih h.2, getField_setField_ne _ _ _ h.1]

theorem getField_setFields_mem {ups : List (String × Option Val)}
    {f : String} {v : Option Val} (hnd : (ups.map Prod.fst).Nodup)
    (hmem : (f, v) ∈ ups) (r : Row) :
    getField (setFields r ups) f = v := by
  induction ups generalizing r with
  | nil => cases hmem
  | cons p ups ih =>
    simp only [List.map_cons, List.nodup_cons] at hnd
    rcases List.mem_cons.mp hmem with heq | hmem
    · subst heq
      show getField (setFields (setField r f v) ups) f = v
      rw [getField_setFields_not_mem hnd.1, getField_setField_self]
    · exact ih hnd.2 hmem _

theorem getField_setFields_pointwise {ups : List (String × Option Val)}
    {r : Row} (h : ∀ p ∈ ups, getField r p.1 = p.2) (f : String) :
    getField (setFields r ups) f = getField r f := by
  induction ups generalizing r with
  | nil => rfl
  | cons p ups ih =>
    show getField (setFields (setField r p.1 p.2) ups) f = getField r f
    have hpt := getField_setField_pointwise (h p (List.mem_cons_self p ups))
    rw [ih (fun q hq => by rw [hpt q.1]; exact h q (List.mem_cons_of_mem p hq)), hpt]

/-! ### `copyUpdates` lemmas -/

theorem mem_copyUpdates {defs : List FieldDef} {src dst : Row}
    {k : String} {v : Option Val} :
    (k, v) ∈ copyUpdates defs src dst ↔
      ∃ fd ∈ defs, fd.name = k ∧ fd.copy = true ∧ getField dst k = none ∧
        v = getField src k := by
  constructor
  · intro h
    rcases List.mem_map.mp h with ⟨fd, hfd, heq⟩
    rcases List.mem_filter.mp hfd with ⟨hmem, hcond⟩
    rcases Prod.mk.injEq .. ▸ heq with ⟨hname, hval⟩
    simp only [Bool.and_eq_true, Option.isNone_iff_eq_none] at hcond
    exact ⟨fd, hmem, hname, hcond.1, hname ▸ hcond.2, hname ▸ hval.symm⟩
  · rintro ⟨fd, hmem, hname, hcopy, hnull, hval⟩
    refine List.mem_map.mpr ⟨fd, List.mem_filter.mpr ⟨hmem, ?_⟩, ?_⟩
    · simp [hcopy, hname, hnull]
    · rw [hname, hval]

theorem key_mem_copyUpdates {defs : List FieldDef} {src dst : Row}
    {k : String} :
    k ∈ (copyUpdates defs src dst).map Prod.fst ↔
      ∃ fd ∈ defs, fd.name = k ∧ fd.copy = true ∧ getField dst k = none := by
  constructor
  · intro h
    rcases List.mem_map.mp h with ⟨p, hp, hk⟩
    rcases p with ⟨k0, v0⟩
    cases hk
    rcases mem_copyUpdates.mp hp with ⟨fd, hmem, hname, hcopy, hnull, _⟩
    exact ⟨fd, hmem, hname, hcopy, hnull⟩
  · rintro ⟨fd, hmem, hname, hcopy, hnull⟩
    exact List.mem_map.mpr ⟨(k, getField src k),
      mem_copyUpdates.mpr ⟨fd, hmem, hname, hcopy, hnull, rfl⟩, rfl⟩

theorem copyUpdates_keys_nodup {defs : List FieldDef} (src dst : Row)
    (hnd : (defs.map FieldDef.name).Nodup) :
    ((copyUpdates defs src dst).map Prod.fst).Nodup := by
  have : (copyUpdates defs src dst).map Prod.fst =
      (defs.filter fun fd => fd.copy && (getField dst fd.name).isNone).map
        FieldDef.name := by
    unfold copyUpdates
    rw [List.map_map]; rfl
  rw [this]
  exact ((List.filter_sublist defs).map FieldDef.name).nodup hnd

/-! ### `sqlEq` and `updateWhere` lemmas -/

theorem sqlEq_some_iff {x : Option Val} {v : Val} :
    sqlEq x (some v) = true ↔ x = some v := by
  cases x <;> simp [sqlEq]

theorem updateWhere_nil (store : List Row) (w : Option Val) :
    updateWhere store w [] = store := by
  unfold updateWhere
  have : ∀ r ∈ store,
      (if sqlEq (getField r "observation_id") w then setFields r [] else r) = r := by
    intro r _; split <;> rfl
  rw [List.map_congr_left this, List.map_id']

theorem ite_isEmpty_updateWhere (store : List Row) (w : Option Val)
    (ups : List (String × Option Val)) :
    (if ups.isEmpty then store else updateWhere store w ups) =
      updateWhere store w ups := by
  cases ups with
  | nil => simp [updateWhere_nil]
  | cons p ups => rfl

/-! ### The canonical merge run -/

/-- Per-row effect of a successful `set_related defs store a b` whose
`select` returned exactly the (distinct) records `rA` (of `a`) and `rB`
(of `b`): the record of `a` takes `rB`'s `group_id` and the copy pass
from `rB`, the record of `b` takes the copy pass from `rA`, all other
rows are untouched. All values are read from the fetched snapshot. -/
def mergeFun (defs : List FieldDef) (rA rB : Row) (a b : String)
    (r : Row) : Row :=
  if getField r "observation_id" = some (Val.str a) then
    setFields (setField r "group_id" (getField rB "group_id"))
      (copyUpdates defs rB rA)
  else if getField r "observation_id" = some (Val.str b) then
    setFields r (copyUpdates defs rA rB)
  else r

theorem obsid_notin_copyUpdates {defs : List FieldDef} {src dst : Row}
    (h : getField dst "observation_id" ≠ none) :
    "observation_id" ∉ (copyUpdates defs src dst).map Prod.fst := by
  intro hmem
  rcases key_mem_copyUpdates.mp hmem with ⟨fd, _, _, _, hn⟩
  exact h hn

theorem val_str_ne {a b : String} (hab : a ≠ b) :
    (some (Val.str a) : Option Val) ≠ some (Val.str b) := by
  intro h
  exact hab (Val.str.inj (Option.some.inj h))

theorem mergeSteps_eq_map (defs : List FieldDef) (store : List Row)
    {rA rB : Row} {a b : String} (hab : a ≠ b)
    (ha : getField rA "observation_id" = some (Val.str a))
    (hb : getField rB "observation_id" = some (Val.str b)) :
    mergeSteps defs store rA rB = store.map (mergeFun defs rA rB a b) := by
  unfold mergeSteps
  simp only [ite_isEmpty_updateWhere, ha, hb]
  unfold updateWhere
  rw [List.map_map, List.map_map]
  refine List.map_congr_left ?_
  intro r _
  simp only [Function.comp_apply]
  by_cases hx : getField r "observation_id" = some (Val.str a)
  · rw [if_pos (sqlEq_some_iff.mpr hx)]
    have hgid : getField (setFields r [("group_id", getField rB "group_id")])
        "observation_id" = some (Val.str a) := by
      show getField (setField r "group_id" (getField rB "group_id"))
        "observation_id" = some (Val.str a)
      rw [getField_setField_ne _ _ _ (by decide), hx]
    rw [if_neg (fun hc => val_str_ne hab (hgid ▸ sqlEq_some_iff.mp hc)),
        if_pos (sqlEq_some_iff.mpr hgid), mergeFun, if_pos hx]
    rfl
  · by_cases hy : getField r "observation_id" = some (Val.str b)
    · rw [if_neg (fun hc => hx (sqlEq_some_iff.mp hc)),
          if_pos (sqlEq_some_iff.mpr hy)]
      have hpres : getField (setFields r (copyUpdates defs rA rB))
          "observation_id" = some (Val.str b) := by
        rw [getField_setFields_not_mem
          (obsid_notin_copyUpdates (hb ▸ Option.some_ne_none _)), hy]
      rw [if_neg (fun hc => val_str_ne (fun e => hab e.symm)
            (hpres.symm.trans (sqlEq_some_iff.mp hc))),
          mergeFun, if_neg hx, if_pos hy]
    · rw [if_neg (fun hc => hx (sqlEq_some_iff.mp hc)),
          if_neg (fun hc => hy (sqlEq_some_iff.mp hc)),
          if_neg (fun hc => hx (sqlEq_some_iff.mp hc)),
          mergeFun, if_neg hx, if_neg hy]

/-- A successful canonical run: when the `select` of
`set_related defs store a b` returns exactly the records `rA` of `a` and
`rB` of `b` - in either storage order - the call succeeds and rewrites
the store row-wise by `mergeFun`. -/
theorem set_related_run (defs : List FieldDef) {store : List Row}
    {a b : String} {rA rB : Row} (hab : a ≠ b)
    (ha : getField rA "observation_id" = some (Val.str a))
    (hb : getField rB "observation_id" = some (Val.str b))
    (hfilt : store.filter (matchRow a b) = [rA, rB] ∨
             store.filter (matchRow a b) = [rB, rA]) :
    set_related defs store a b =
      .ok (store.map (mergeFun defs rA rB a b)) := by
  unfold set_related
  have hra : ¬ (getField rA "observation_id" ≠ some (Val.str a)) :=
    fun hc => hc ha
  have hrb : getField rB "observation_id" ≠ some (Val.str a) := by
    rw [hb]; exact val_str_ne (Ne.symm hab)
  rcases hfilt with h | h
  · simp only [h, List.get?, if_neg hra]
    rw [mergeSteps_eq_map defs store hab ha hb]
  · have hrev : ([rB, rA] : List Row).reverse = [rA, rB] := by simp
    simp only [h, List.get?, if_pos hrb, hrev]
    rw [mergeSteps_eq_map defs store hab ha hb]

/-! ### Row identification and per-row final values -/

theorem matchRow_of_left {a b : String} {r : Row}
    (h : getField r "observation_id" = some (Val.str a)) :
    matchRow a b r = true :=
  decide_eq_true (Or.inl h)

theorem matchRow_of_right {a b : String} {r : Row}
    (h : getField r "observation_id" = some (Val.str b)) :
    matchRow a b r = true :=
  decide_eq_true (Or.inr h)

/-- In a store whose `select` returns exactly `rA` and `rB`, a row with
`observation_id = a` is `rA`. -/
theorem row_of_obsid_left {store : List Row} {a b : String} {rA rB : Row}
    (hab : a ≠ b)
    (hb : getField rB "observation_id" = some (Val.str b))
    (hfilt : store.filter (matchRow a b) = [rA, rB] ∨
             store.filter (matchRow a b) = [rB, rA])
    {r : Row} (hr : r ∈ store)
    (hx : getField r "observation_id" = some (Val.str a)) : r = rA := by
  have hmem : r ∈ store.filter (matchRow a b) :=
    List.mem_filter.mpr ⟨hr, matchRow_of_left hx⟩
  have hne : r ≠ rB := by
    intro he
    rw [he] at hx
    exact val_str_ne hab (hx.symm.trans hb)
  rcases hfilt with h | h <;> rw [h] at hmem <;>
    simp only [List.mem_cons, List.not_mem_nil, or_false] at hmem <;>
    tauto

/-- In a store whose `select` returns exactly `rA` and `rB`, a row with
`observation_id = b` is `rB`. -/
theorem row_of_obsid_right {store : List Row} {a b : String} {rA rB : Row}
    (hab : a ≠ b)
    (ha : getField rA "observation_id" = some (Val.str a))
    (hfilt : store.filter (matchRow a b) = [rA, rB] ∨
             store.filter (matchRow a b) = [rB, rA])
    {r : Row} (hr : r ∈ store)
    (hx : getField r "observation_id" = some (Val.str b)) : r = rB := by
  have hmem : r ∈ store.filter (matchRow a b) :=
    List.mem_filter.mpr ⟨hr, matchRow_of_right hx⟩
  have hne : r ≠ rA := by
    intro he
    rw [he] at hx
    exact val_str_ne hab (ha.symm.trans hx)
  rcases hfilt with h | h <;> rw [h] at hmem <;>
    simp only [List.mem_cons, List.not_mem_nil, or_false] at hmem <;>
    tauto

theorem mergeFun_at_A {defs : List FieldDef} {rA rB : Row} {a b : String}
    (ha : getField rA "observation_id" = some (Val.str a)) :
    mergeFun defs rA rB a b rA =
      setFields (setField rA "group_id" (getField rB "group_id"))
        (copyUpdates defs rB rA) := by
  unfold mergeFun; rw [if_pos ha]

theorem mergeFun_at_B {defs : List FieldDef} {rA rB : Row} {a b : String}
    (hab : a ≠ b)
    (hb : getField rB "observation_id" = some (Val.str b)) :
    mergeFun defs rA rB a b rB = setFields rB (copyUpdates defs rA rB) := by
  unfold mergeFun
  rw [if_neg (fun hc => val_str_ne (Ne.symm hab) (hb.symm.trans hc)), if_pos hb]

theorem mergeFun_other {defs : List FieldDef} {rA rB : Row} {a b : String}
    {r : Row} (h1 : getField r "observation_id" ≠ some (Val.str a))
    (h2 : getField r "observation_id" ≠ some (Val.str b)) :
    mergeFun defs rA rB a b r = r := by
  unfold mergeFun; rw [if_neg h1, if_neg h2]

/-- `mergeFun` never rewrites `observation_id` (both fetched records have
a non-null `observation_id`, so the field can never be in a copy pass). -/
theorem mergeFun_obsid {defs : List FieldDef} {rA rB : Row} {a b : String}
    (hA : getField rA "observation_id" ≠ none)
    (hB : getField rB "observation_id" ≠ none) (r : Row) :
    getField (mergeFun defs rA rB a b r) "observation_id" =
      getField r "observation_id" := by
  unfold mergeFun
  split
  · rw [getField_setFields_not_mem (obsid_notin_copyUpdates hA),
        getField_setField_ne _ _ _ (by decide)]
  split
  · rw [getField_setFields_not_mem (obsid_notin_copyUpdates hB)]
  · rfl

/-- No copy-on-merge registry entry is named `group_id`: justified by the
spec's data model, where `groupId` is managed solely by the grouping
engine (the registry file itself is data outside the source tree). -/
def NoGidCopy (defs : List FieldDef) : Prop :=
  ∀ fd ∈ defs, fd.copy = true → fd.name ≠ "group_id"

instance (defs : List FieldDef) : Decidable (NoGidCopy defs) := by
  unfold NoGidCopy; infer_instance

theorem gid_notin_copyUpdates {defs : List FieldDef} {src dst : Row}
    (hgid : NoGidCopy defs) :
    "group_id" ∉ (copyUpdates defs src dst).map Prod.fst := by
  intro hmem
  rcases key_mem_copyUpdates.mp hmem with ⟨fd, hfd, hname, hcopy, _⟩
  exact hgid fd hfd hcopy hname

/-- Final `group_id` of `a`'s record: `rB`'s pre-call `group_id`. -/
theorem final_A_gid {defs : List FieldDef} {rA rB : Row} {a b : String}
    (ha : getField rA "observation_id" = some (Val.str a))
    (hgid : NoGidCopy defs) :
    getField (mergeFun defs rA rB a b rA) "group_id" =
      getField rB "group_id" := by
  rw [mergeFun_at_A ha, getField_setFields_not_mem (gid_notin_copyUpdates hgid),
      getField_setField_self]

/-- Final `group_id` of `b`'s record: unchanged. -/
theorem final_B_gid {defs : List FieldDef} {rA rB : Row} {a b : String}
    (hab : a ≠ b)
    (hb : getField rB "observation_id" = some (Val.str b))
    (hgid : NoGidCopy defs) :
    getField (mergeFun defs rA rB a b rB) "group_id" =
      getField rB "group_id" := by
  rw [mergeFun_at_B hab hb,
      getField_setFields_not_mem (gid_notin_copyUpdates hgid)]

/-- Copy pass toward `a`'s record: a null copy-flagged field takes `rB`'s
value. -/
theorem final_A_copy {defs : List FieldDef} {rA rB : Row} {a b : String}
    (ha : getField rA "observation_id" = some (Val.str a))
    (hnd : (defs.map FieldDef.name).Nodup) {fd : FieldDef}
    (hfd : fd ∈ defs) (hcopy : fd.copy = true)
    (hnull : getField rA fd.name = none) :
    getField (mergeFun defs rA rB a b rA) fd.name = getField rB fd.name := by
  rw [mergeFun_at_A ha]
  exact getField_setFields_mem (copyUpdates_keys_nodup rB rA hnd)
    (mem_copyUpdates.mpr ⟨fd, hfd, rfl, hcopy, hnull, rfl⟩) _

/-- Copy pass toward `b`'s record: a null copy-flagged field takes `rA`'s
value. -/
theorem final_B_copy {defs : List FieldDef} {rA rB : Row} {a b : String}
    (hab : a ≠ b)
    (hb : getField rB "observation_id" = some (Val.str b))
    (hnd : (defs.map FieldDef.name).Nodup) {fd : FieldDef}
    (hfd : fd ∈ defs) (hcopy : fd.copy = true)
    (hnull : getField rB fd.name = none) :
    getField (mergeFun defs rA rB a b rB) fd.name = getField rA fd.name := by
  rw [mergeFun_at_B hab hb]
  exact getField_setFields_mem (copyUpdates_keys_nodup rA rB hnd)
    (mem_copyUpdates.mpr ⟨fd, hfd, rfl, hcopy, hnull, rfl⟩) _

/-- A non-null field of `a`'s record is never overwritten by the copy
pass (and, not being `group_id`, not by the `group_id` assignment). -/
theorem final_A_keep {defs : List FieldDef} {rA rB : Row} {a b : String}
    (ha : getField rA "observation_id" = some (Val.str a))
    (hgid : NoGidCopy defs) {fd : FieldDef} (hfd : fd ∈ defs)
    (hcopy : fd.copy = true) {v : Val}
    (hval : getField rA fd.name = some v) :
    getField (mergeFun defs rA rB a b rA) fd.name = some v := by
  rw [mergeFun_at_A ha]
  have hnot : fd.name ∉ (copyUpdates defs rB rA).map Prod.fst := by
    intro hmem
    rcases key_mem_copyUpdates.mp hmem with ⟨fd2, _, _, _, hnull⟩
    rw [hval] at hnull; cases hnull
  rw [getField_setFields_not_mem hnot,
      getField_setField_ne _ _ _ (hgid fd hfd hcopy), hval]

/-- A non-null field of `b`'s record is never overwritten. -/
theorem final_B_keep {defs : List FieldDef} {rA rB : Row} {a b : String}
    (hab : a ≠ b)
    (hb : getField rB "observation_id" = some (Val.str b))
    {fd : FieldDef} {v : Val} (hval : getField rB fd.name = some v) :
    getField (mergeFun defs rA rB a b rB) fd.name = some v := by
  rw [mergeFun_at_B hab hb]
  have hnot : fd.name ∉ (copyUpdates defs rA rB).map Prod.fst := by
    intro hmem
    rcases key_mem_copyUpdates.mp hmem with ⟨fd2, _, _, _, hnull⟩
    rw [hval] at hnull; cases hnull
  rw [getField_setFields_not_mem hnot, hval]

/-- A field with no copy-flagged registry entry is never copied onto
`a`'s record (for a field other than `group_id`, which step 2 assigns). -/
theorem final_A_nocopy {defs : List FieldDef} {rA rB : Row} {a b : String}
    (ha : getField rA "observation_id" = some (Val.str a))
    {k : String} (hk : k ≠ "group_id")
    (hnc : ∀ fd ∈ defs, fd.name = k → fd.copy = false) :
    getField (mergeFun defs rA rB a b rA) k = getField rA k := by
  rw [mergeFun_at_A ha]
  have hnot : k ∉ (copyUpdates defs rB rA).map Prod.fst := by
    intro hmem
    rcases key_mem_copyUpdates.mp hmem with ⟨fd, hfd, hname, hcopy, _⟩
    rw [hnc fd hfd hname] at hcopy; cases hcopy
  rw [getField_setFields_not_mem hnot, getField_setField_ne _ _ _ hk]

/-- A field with no copy-flagged registry entry is never copied onto
`b`'s record. -/
theorem final_B_nocopy {defs : List FieldDef} {rA rB : Row} {a b : String}
    (hab : a ≠ b)
    (hb : getField rB "observation_id" = some (Val.str b))
    {k : String} (hnc : ∀ fd ∈ defs, fd.name = k → fd.copy = false) :
    getField (mergeFun defs rA rB a b rB) k = getField rB k := by
  rw [mergeFun_at_B hab hb]
  have hnot : k ∉ (copyUpdates defs rA rB).map Prod.fst := by
    intro hmem
    rcases key_mem_copyUpdates.mp hmem with ⟨fd, hfd, hname, hcopy, _⟩
    rw [hnc fd hfd hname] at hcopy; cases hcopy
  rw [getField_setFields_not_mem hnot]

/-- In the result store, the row with `observation_id = a` is the merged
image of `rA`. -/
theorem mem_map_row_a {defs : List FieldDef} {store : List Row}
    {a b : String} {rA rB : Row} (hab : a ≠ b)
    (ha : getField rA "observation_id" = some (Val.str a))
    (hb : getField rB "observation_id" = some (Val.str b))
    (hfilt : store.filter (matchRow a b) = [rA, rB] ∨
             store.filter (matchRow a b) = [rB, rA])
    {r' : Row} (hr' : r' ∈ store.map (mergeFun defs rA rB a b))
    (hx : getField r' "observation_id" = some (Val.str a)) :
    r' = mergeFun defs rA rB a b rA := by
  rcases List.mem_map.mp hr' with ⟨r, hr, hEq⟩
  have hobs : getField r "observation_id" = some (Val.str a) := by
    rw [← @mergeFun_obsid defs rA rB a b
      (ha ▸ Option.some_ne_none _) (hb ▸ Option.some_ne_none _) r, hEq, hx]
  rw [← hEq, row_of_obsid_left hab hb hfilt hr hobs]

/-- In the result store, the row with `observation_id = b` is the merged
image of `rB`. -/
theorem mem_map_row_b {defs : List FieldDef} {store : List Row}
    {a b : String} {rA rB : Row} (hab : a ≠ b)
    (ha : getField rA "observation_id" = some (Val.str a))
    (hb : getField rB "observation_id" = some (Val.str b))
    (hfilt : store.filter (matchRow a b) = [rA, rB] ∨
             store.filter (matchRow a b) = [rB, rA])
    {r' : Row} (hr' : r' ∈ store.map (mergeFun defs rA rB a b))
    (hx : getField r' "observation_id" = some (Val.str b)) :
    r' = mergeFun defs rA rB a b rB := by
  rcases List.mem_map.mp hr' with ⟨r, hr, hEq⟩
  have hobs : getField r "observation_id" = some (Val.str b) := by
    rw [← @mergeFun_obsid defs rA rB a b
      (ha ▸ Option.some_ne_none _) (hb ▸ Option.some_ne_none _) r, hEq, hx]
  rw [← hEq, row_of_obsid_right hab ha hfilt hr hobs]

/-! ### Claim theorems -/

/-- C1: for distinct records `rA` (of `a`) and `rB` (of `b`) present in
the store, `set_related` runs the copy pass in both directions over the
copy-flagged registry fields: a null side is overwritten with the other
side's value, an existing non-null value is never overwritten, and a
field with no copy flag is never copied (stated away from `group_id`,
which step 2 of the merge assigns, and under the spec's registry
constraints: unique field names, `group_id` not copy-flagged). -/
theorem C1_copy_pass_both_directions
    (defs : List FieldDef) (store store' : List Row) (a b : String)
    (rA rB : Row) (hab : a ≠ b)
    (ha : getField rA "observation_id" = some (Val.str a))
    (hb : getField rB "observation_id" = some (Val.str b))
    (hfilt : store.filter (matchRow a b) = [rA, rB] ∨
             store.filter (matchRow a b) = [rB, rA])
    (hnd : (defs.map FieldDef.name).Nodup)
    (hgid : NoGidCopy defs)
    (hrun : set_related defs store a b = Except.ok store') :
    (∀ fd ∈ defs, fd.copy = true →
      (∀ v : Val, getField rA fd.name = none → getField rB fd.name = some v →
        ∀ r' ∈ store', getField r' "observation_id" = some (Val.str a) →
          getField r' fd.name = some v) ∧
      (∀ v : Val, getField rB fd.name = none → getField rA fd.name = some v →
        ∀ r' ∈ store', getField r' "observation_id" = some (Val.str b) →
          getField r' fd.name = some v) ∧
      (∀ v : Val, getField rA fd.name = some v →
        ∀ r' ∈ store', getField r' "observation_id" = some (Val.str a) →
          getField r' fd.name = some v) ∧
      (∀ v : Val, getField rB fd.name = some v →
        ∀ r' ∈ store', getField r' "observation_id" = some (Val.str b) →
          getField r' fd.name = some v)) ∧
    (∀ k : String, k ≠ "group_id" →
      (∀ fd ∈ defs, fd.name = k → fd.copy = false) →
      ∀ r' ∈ store',
        (getField r' "observation_id" = some (Val.str a) →
          getField r' k = getField rA k) ∧
        (getField r' "observation_id" = some (Val.str b) →
          getField r' k = getField rB k)) := by
  have hmap : store' = store.map (mergeFun defs rA rB a b) := by
    have h2 := set_related_run defs hab ha hb hfilt
    rw [hrun] at h2
    exact Except.ok.inj h2
  subst hmap
  refine ⟨fun fd hfd hcopy => ⟨?_, ?_, ?_, ?_⟩, fun k hk hnc r' hr' => ⟨?_, ?_⟩⟩
  · intro v hnull hval r' hr' hx
    rw [mem_map_row_a hab ha hb hfilt hr' hx,
        final_A_copy ha hnd hfd hcopy hnull, hval]
  · intro v hnull hval r' hr' hx
    rw [mem_map_row_b hab ha hb hfilt hr' hx,
        final_B_copy hab hb hnd hfd hcopy hnull, hval]
  · intro v hval r' hr' hx
    rw [mem_map_row_a hab ha hb hfilt hr' hx]
    exact final_A_keep ha hgid hfd hcopy hval
  · intro v hval r' hr' hx
    rw [mem_map_row_b hab ha hb hfilt hr' hx]
    exact final_B_keep hab hb hval
  · intro hx
    rw [mem_map_row_a hab ha hb hfilt hr' hx]
    exact final_A_nocopy ha hk hnc
  · intro hx
    rw [mem_map_row_b hab ha hb hfilt hr' hx]
    exact final_B_nocopy hab hb hnc

/-- C1 witness: on a concrete two-record store, the merge fills `a`'s
null `image_w` with 4000 from `b`'s record. -/
theorem C1_copy_pass_both_directions_witness :
    getField
      [("observation_id", some (Val.str "a")),
       ("group_id", some (Val.str "g2")),
       ("image_w", some (Val.int 4000)),
       ("note", some (Val.str "na"))] "image_w" = some (Val.int 4000) := by
  have h := C1_copy_pass_both_directions
    [⟨"image_w", "integer", true⟩, ⟨"note", "text", true⟩]
    [[("observation_id", some (Val.str "a")),
      ("group_id", some (Val.str "g1")),
      ("image_w", none), ("note", some (Val.str "na"))],
     [("observation_id", some (Val.str "b")),
      ("group_id", some (Val.str "g2")),
      ("image_w", some (Val.int 4000)), ("note", none)]]
    [[("observation_id", some (Val.str "a")),
      ("group_id", some (Val.str "g2")),
      ("image_w", some (Val.int 4000)), ("note", some (Val.str "na"))],
     [("observation_id", some (Val.str "b")),
      ("group_id", some (Val.str "g2")),
      ("image_w", some (Val.int 4000)), ("note", some (Val.str "na"))]]
    "a" "b"
    [("observation_id", some (Val.str "a")),
     ("group_id", some (Val.str "g1")),
     ("image_w", none), ("note", some (Val.str "na"))]
    [("observation_id", some (Val.str "b")),
     ("group_id", some (Val.str "g2")),
     ("image_w", some (Val.int 4000)), ("note", none)]
    (by decide) (by decide) (by decide)
    (Or.inl (by decide)) (by decide) (by decide) (by decide)
  exact ((h.1 ⟨"image_w", "integer", true⟩ (by decide) rfl).1
    (Val.int 4000) (by decide) (by decide)) _ (by decide) (by decide)

/-- C2: `set_related defs store a b` sets `a`'s record's `group_id` to
`rB`'s pre-call `group_id` and leaves `b`'s record's `group_id` at that
same pre-call value, whichever storage order the `select` returned the
two records in. -/
theorem C2_groupid_canonical_direction
    (defs : List FieldDef) (store store' : List Row) (a b : String)
    (rA rB : Row) (hab : a ≠ b)
    (ha : getField rA "observation_id" = some (Val.str a))
    (hb : getField rB "observation_id" = some (Val.str b))
    (hfilt : store.filter (matchRow a b) = [rA, rB] ∨
             store.filter (matchRow a b) = [rB, rA])
    (hgid : NoGidCopy defs)
    (hrun : set_related defs store a b = Except.ok store') :
    (∀ r' ∈ store', getField r' "observation_id" = some (Val.str a) →
      getField r' "group_id" = getField rB "group_id") ∧
    (∀ r' ∈ store', getField r' "observation_id" = some (Val.str b) →
      getField r' "group_id" = getField rB "group_id") := by
  have hmap : store' = store.map (mergeFun defs rA rB a b) := by
    have h2 := set_related_run defs hab ha hb hfilt
    rw [hrun] at h2
    exact Except.ok.inj h2
  subst hmap
  constructor
  · intro r' hr' hx
    rw [mem_map_row_a hab ha hb hfilt hr' hx]
    exact final_A_gid ha hgid
  · intro r' hr' hx
    rw [mem_map_row_b hab ha hb hfilt hr' hx]
    exact final_B_gid hab hb hgid

/-- C2 witness: concrete two-record store, fetched in reversed storage
order (`b`'s record stored first); `a`'s record ends in group `g2`, `b`'s
record keeps `g2`. -/
theorem C2_groupid_canonical_direction_witness :
    getField
      [("observation_id", some (Val.str "a")),
       ("group_id", some (Val.str "g2")), ("image_w", none)] "group_id" =
      some (Val.str "g2") := by
  have h := C2_groupid_canonical_direction
    [⟨"image_w", "integer", true⟩]
    [[("observation_id", some (Val.str "b")),
      ("group_id", some (Val.str "g2")), ("image_w", none)],
     [("observation_id", some (Val.str "a")),
      ("group_id", some (Val.str "g1")), ("image_w", none)]]
    [[("observation_id", some (Val.str "b")),
      ("group_id", some (Val.str "g2")), ("image_w", none)],
     [("observation_id", some (Val.str "a")),
      ("group_id", some (Val.str "g2")), ("image_w", none)]]
    "a" "b"
    [("observation_id", some (Val.str "a")),
     ("group_id", some (Val.str "g1")), ("image_w", none)]
    [("observation_id", some (Val.str "b")),
     ("group_id", some (Val.str "g2")), ("image_w", none)]
    (by decide) (by decide) (by decide)
    (Or.inr (by decide)) (by decide) (by decide)
  exact h.1 _ (by decide) (by decide)

/-- C4: when at least one of the two observation ids has no matching
record (and observation ids are unique, per the data model), the fetch
returns fewer than two rows, so `set_related` raises before running any
update: the error carries the store unchanged. In the Python source the
exception is the `IndexError` of `obs[0]` / `obs[1]`; the spec names
this failure `RecordNotFoundError`. -/
theorem C4_unknown_id_fails_before_any_write
    (defs : List FieldDef) (store : List Row) (a b : String)
    (huniq : ∀ s : String,
      (store.filter (fun r =>
        decide (getField r "observation_id" = some (Val.str s)))).length ≤ 1)
    (habs : (∀ r ∈ store, getField r "observation_id" ≠ some (Val.str a)) ∨
            (∀ r ∈ store, getField r "observation_id" ≠ some (Val.str b))) :
    set_related defs store a b = Except.error (PyErr.indexError, store) := by
  rcases habs with habs | habs
  · have hcong : store.filter (matchRow a b) = store.filter (fun r =>
        decide (getField r "observation_id" = some (Val.str b))) :=
      List.filter_congr (fun r hr => by
        unfold matchRow
        exact decide_eq_decide.mpr (or_iff_right (habs r hr)))
    have hlen : (store.filter (matchRow a b)).length ≤ 1 := by
      rw [hcong]; exact huniq b
    cases hfl : store.filter (matchRow a b) with
    | nil => unfold set_related; simp [hfl, List.get?]
    | cons o0 rest =>
      cases rest with
      | cons r1 rest2 => rw [hfl] at hlen; simp at hlen
      | nil =>
        have ho0 : o0 ∈ store.filter (matchRow a b) := by
          rw [hfl]; exact List.mem_cons_self _ _
        have hcond : getField o0 "observation_id" ≠ some (Val.str a) :=
          habs o0 (List.mem_filter.mp ho0).1
        unfold set_related
        simp [hfl, List.get?, if_pos hcond]
  · have hcong : store.filter (matchRow a b) = store.filter (fun r =>
        decide (getField r "observation_id" = some (Val.str a))) :=
      List.filter_congr (fun r hr => by
        unfold matchRow
        exact decide_eq_decide.mpr (or_iff_left (habs r hr)))
    have hlen : (store.filter (matchRow a b)).length ≤ 1 := by
      rw [hcong]; exact huniq a
    cases hfl : store.filter (matchRow a b) with
    | nil => unfold set_related; simp [hfl, List.get?]
    | cons o0 rest =>
      cases rest with
      | cons r1 rest2 => rw [hfl] at hlen; simp at hlen
      | nil =>
        have ho0 : o0 ∈ store.filter (matchRow a b) := by
          rw [hfl]; exact List.mem_cons_self _ _
        have ho0a : getField o0 "observation_id" = some (Val.str a) := by
          have hmt := (List.mem_filter.mp ho0).2
          unfold matchRow at hmt
          rcases of_decide_eq_true hmt with h | h
          · exact h
          · exact absurd h (habs o0 (List.mem_filter.mp ho0).1)
        have hcond : ¬ (getField o0 "observation_id" ≠ some (Val.str a)) :=
          fun hc => hc ho0a
        unfold set_related
        simp [hfl, List.get?, if_neg hcond]

/-- C4 witness: grouping `"a"` with the unknown id `"zzz"` on a
one-record store fails with the index error, the carried store being the
untouched input store. -/
theorem C4_unknown_id_fails_before_any_write_witness :
    set_related [⟨"image_w", "integer", true⟩]
      [[("observation_id", some (Val.str "a")),
        ("group_id", some (Val.str "g1"))]] "a" "zzz" =
      Except.error (PyErr.indexError,
        [[("observation_id", some (Val.str "a")),
          ("group_id", some (Val.str "g1"))]]) := by
  exact C4_unknown_id_fails_before_any_write _ _ _ _
    (fun s => le_trans (List.length_filter_le _ _) (by decide))
    (Or.inr (by decide))

/-- C9: `add_images` is annotated `-> int` and specified to return the
count of records added, but its body has no `return` statement: every
call returns Python `None` - here, even though one record was actually
added. -/
theorem C9_add_images_returns_no_count :
    (add_images (fun _ => ⟨"a.jpg", 3, "2021:01:02 03:04:05", Val.int 10,
        Val.int 20, "h77", "obs1", "grp1"⟩) [] ["a.jpg"]).2 = none ∧
    ((add_images (fun _ => ⟨"a.jpg", 3, "2021:01:02 03:04:05", Val.int 10,
        Val.int 20, "h77", "obs1", "grp1"⟩) [] ["a.jpg"]).1).length = 1 := by
  constructor
  · rfl
  · rfl

/-- C10: `unset_related` with an observation id matching no record is a
silent no-op: the update matches zero rows and no error is raised (the
function is total), leaving every record unchanged - unlike `set_related`,
which raises on an unknown id. -/
theorem C10_ungroup_unknown_id_noop (store : List Row)
    (obsId fresh : String)
    (h : ∀ r ∈ store, getField r "observation_id" ≠ some (Val.str obsId)) :
    unset_related store obsId fresh = store := by
  unfold unset_related updateWhere
  have hrow : ∀ r ∈ store,
      (if sqlEq (getField r "observation_id") (some (Val.str obsId)) then
        setFields r [("group_id", some (Val.str fresh))] else r) = r := by
    intro r hr
    rw [if_neg (fun hc => h r hr (sqlEq_some_iff.mp hc))]
  rw [List.map_congr_left hrow, List.map_id']

/-- C10 witness: ungrouping the unknown id `"y"` leaves the concrete
one-record store exactly as it was. -/
theorem C10_ungroup_unknown_id_noop_witness :
    unset_related
      [[("observation_id", some (Val.str "x")),
        ("group_id", some (Val.str "g"))]] "y" "freshuuid" =
      [[("observation_id", some (Val.str "x")),
        ("group_id", some (Val.str "g"))]] :=
  C10_ungroup_unknown_id_noop _ _ _ (by decide)

theorem forall2_map_self {α β : Type} (l : List α) (f : α → β)
    (R : α → β → Prop) (h : ∀ x ∈ l, R x (f x)) :
    List.Forall₂ R l (l.map f) := by
  induction l with
  | nil => exact List.Forall₂.nil
  | cons x l ih =>
    exact List.Forall₂.cons (h x (List.mem_cons_self x l))
      (ih (fun y hy => h y (List.mem_cons_of_mem x hy)))

/-- The two `select` predicates of `set_related defs store a b` and
`set_related defs store b a` pick the same rows. -/
theorem filter_matchRow_swap (store : List Row) (a b : String) :
    store.filter (matchRow b a) = store.filter (matchRow a b) :=
  List.filter_congr (fun r _ => by
    unfold matchRow
    exact decide_eq_decide.mpr or_comm)

/-- C5: merge is commutative per field: with `rA.F = some v` and
`rB.F = none` for a copy-flagged registry field `F`, both
`set_related store a b` and `set_related store b a` (from the same
starting state) leave `v` as the value of `F` on both records. -/
theorem C5_merge_commutative_per_field
    (defs : List FieldDef) (store : List Row) (a b : String)
    (rA rB : Row) (hab : a ≠ b)
    (ha : getField rA "observation_id" = some (Val.str a))
    (hb : getField rB "observation_id" = some (Val.str b))
    (hfilt : store.filter (matchRow a b) = [rA, rB] ∨
             store.filter (matchRow a b) = [rB, rA])
    (hnd : (defs.map FieldDef.name).Nodup)
    (hgid : NoGidCopy defs)
    (fd : FieldDef) (hfd : fd ∈ defs) (hcopy : fd.copy = true) (v : Val)
    (hA : getField rA fd.name = some v)
    (hB : getField rB fd.name = none) :
    (∃ s1, set_related defs store a b = Except.ok s1 ∧
      ∀ r' ∈ s1, (getField r' "observation_id" = some (Val.str a) ∨
                  getField r' "observation_id" = some (Val.str b)) →
        getField r' fd.name = some v) ∧
    (∃ s2, set_related defs store b a = Except.ok s2 ∧
      ∀ r' ∈ s2, (getField r' "observation_id" = some (Val.str a) ∨
                  getField r' "observation_id" = some (Val.str b)) →
        getField r' fd.name = some v) := by
  have hfilt2 : store.filter (matchRow b a) = [rB, rA] ∨
      store.filter (matchRow b a) = [rA, rB] := by
    rw [filter_matchRow_swap]
    exact hfilt.symm
  constructor
  · refine ⟨_, set_related_run defs hab ha hb hfilt, ?_⟩
    intro r' hr' hor
    rcases hor with hx | hx
    · rw [mem_map_row_a hab ha hb hfilt hr' hx]
      exact final_A_keep ha hgid hfd hcopy hA
    · rw [mem_map_row_b hab ha hb hfilt hr' hx,
          final_B_copy hab hb hnd hfd hcopy hB, hA]
  · refine ⟨_, set_related_run defs (Ne.symm hab) hb ha hfilt2, ?_⟩
    intro r' hr' hor
    rcases hor with hx | hx
    · rw [mem_map_row_b (Ne.symm hab) hb ha hfilt2 hr' hx]
      exact final_B_keep (Ne.symm hab) ha hA
    · rw [mem_map_row_a (Ne.symm hab) hb ha hfilt2 hr' hx,
          final_A_copy hb hnd hfd hcopy hB, hA]

/-- C5 witness: on a concrete two-record store where `a`'s record has
`image_w = 7` and `b`'s record has it null, both call directions make 7
the value of `image_w` on every one of the two records. -/
theorem C5_merge_commutative_per_field_witness :
    (∃ s1, set_related [⟨"image_w", "integer", true⟩]
      [[("observation_id", some (Val.str "a")),
        ("group_id", some (Val.str "g1")), ("image_w", some (Val.int 7))],
       [("observation_id", some (Val.str "b")),
        ("group_id", some (Val.str "g2")), ("image_w", none)]]
      "a" "b" = Except.ok s1 ∧
      ∀ r' ∈ s1, (getField r' "observation_id" = some (Val.str "a") ∨
                  getField r' "observation_id" = some (Val.str "b")) →
        getField r' "image_w" = some (Val.int 7)) ∧
    (∃ s2, set_related [⟨"image_w", "integer", true⟩]
      [[("observation_id", some (Val.str "a")),
        ("group_id", some (Val.str "g1")), ("image_w", some (Val.int 7))],
       [("observation_id", some (Val.str "b")),
        ("group_id", some (Val.str "g2")), ("image_w", none)]]
      "b" "a" = Except.ok s2 ∧
      ∀ r' ∈ s2, (getField r' "observation_id" = some (Val.str "a") ∨
                  getField r' "observation_id" = some (Val.str "b")) →
        getField r' "image_w" = some (Val.int 7)) :=
  C5_merge_commutative_per_field _ _ "a" "b"
    [("observation_id", some (Val.str "a")),
     ("group_id", some (Val.str "g1")), ("image_w", some (Val.int 7))]
    [("observation_id", some (Val.str "b")),
     ("group_id", some (Val.str "g2")), ("image_w", none)]
    (by decide) (by decide) (by decide) (Or.inl (by decide))
    (by decide) (by decide) ⟨"image_w", "integer", true⟩
    (by decide) rfl (Val.int 7) (by decide) (by decide)

/-- C3 counterexample: the claim fails on the code in both of its
scenarios. Merging the record of `"a"` with itself raises (the single
fetched row is indexed as if two were returned), rather than running a
harmless no-op; and merging two distinct records that already share
group `"g"` does not leave every stored field value unchanged: the copy
pass fills `a`'s null `image_w` with 4000. -/
theorem C3_self_or_same_group_counterexample :
    set_related [⟨"image_w", "integer", true⟩]
      [[("observation_id", some (Val.str "a")),
        ("group_id", some (Val.str "g"))]] "a" "a" =
      Except.error (PyErr.indexError,
        [[("observation_id", some (Val.str "a")),
          ("group_id", some (Val.str "g"))]]) ∧
    set_related [⟨"image_w", "integer", true⟩]
      [[("observation_id", some (Val.str "a")),
        ("group_id", some (Val.str "g")), ("image_w", none)],
       [("observation_id", some (Val.str "b")),
        ("group_id", some (Val.str "g")), ("image_w", some (Val.int 4000))]]
      "a" "b" =
      Except.ok
        [[("observation_id", some (Val.str "a")),
          ("group_id", some (Val.str "g")), ("image_w", some (Val.int 4000))],
         [("observation_id", some (Val.str "b")),
          ("group_id", some (Val.str "g")), ("image_w", some (Val.int 4000))]] := by
  constructor
  · decide
  · decide

/-- C3 (amended): merging two *distinct* records that already share a
`group_id` succeeds and does not corrupt data: every record keeps its
`group_id` value (the assignment is a no-op), rows other than the pair
are untouched entirely, and the copy pass still runs as usual on the
pair - a null copy-flagged field is filled from the other record (in
either direction), a field null on both sides stays null, a non-null
value is never overwritten, and fields with no copy flag are unchanged.
Merging a record with *itself* raises an index error before any update
has run, leaving the store unmodified (the single fetched row is indexed
as if two were returned). -/
theorem C3_self_and_same_group_behaviour :
    (∀ (defs : List FieldDef) (store : List Row) (a : String) (rA : Row),
      store.filter (matchRow a a) = [rA] →
      set_related defs store a a = Except.error (PyErr.indexError, store)) ∧
    (∀ (defs : List FieldDef) (store : List Row) (a b : String)
      (rA rB : Row), a ≠ b →
      getField rA "observation_id" = some (Val.str a) →
      getField rB "observation_id" = some (Val.str b) →
      (store.filter (matchRow a b) = [rA, rB] ∨
       store.filter (matchRow a b) = [rB, rA]) →
      (defs.map FieldDef.name).Nodup → NoGidCopy defs →
      getField rA "group_id" = getField rB "group_id" →
      ∃ store', set_related defs store a b = Except.ok store' ∧
        List.Forall₂
          (fun r r' => getField r' "group_id" = getField r "group_id")
          store store' ∧
        List.Forall₂ (fun r r' =>
          getField r "observation_id" ≠ some (Val.str a) →
          getField r "observation_id" ≠ some (Val.str b) → r' = r)
          store store' ∧
        (∀ fd ∈ defs, fd.copy = true →
          (∀ v : Val, getField rA fd.name = none →
            getField rB fd.name = some v →
            ∀ r' ∈ store',
              getField r' "observation_id" = some (Val.str a) →
              getField r' fd.name = some v) ∧
          (∀ v : Val, getField rB fd.name = none →
            getField rA fd.name = some v →
            ∀ r' ∈ store',
              getField r' "observation_id" = some (Val.str b) →
              getField r' fd.name = some v) ∧
          (∀ v : Val, getField rA fd.name = some v →
            ∀ r' ∈ store',
              getField r' "observation_id" = some (Val.str a) →
              getField r' fd.name = some v) ∧
          (∀ v : Val, getField rB fd.name = some v →
            ∀ r' ∈ store',
              getField r' "observation_id" = some (Val.str b) →
              getField r' fd.name = some v) ∧
          (getField rA fd.name = none → getField rB fd.name = none →
            ∀ r' ∈ store',
              (getField r' "observation_id" = some (Val.str a) →
                getField r' fd.name = none) ∧
              (getField r' "observation_id" = some (Val.str b) →
                getField r' fd.name = none))) ∧
        (∀ k : String, k ≠ "group_id" →
          (∀ fd ∈ defs, fd.name = k → fd.copy = false) →
          ∀ r' ∈ store',
            (getField r' "observation_id" = some (Val.str a) →
              getField r' k = getField rA k) ∧
            (getField r' "observation_id" = some (Val.str b) →
              getField r' k = getField rB k))) := by
  constructor
  · intro defs store a rA hfl
    have ho : getField rA "observation_id" = some (Val.str a) := by
      have hm : rA ∈ store.filter (matchRow a a) := by
        rw [hfl]; exact List.mem_cons_self _ _
      have hmt := (List.mem_filter.mp hm).2
      unfold matchRow at hmt
      rcases of_decide_eq_true hmt with h | h <;> exact h
    have hcond : ¬ (getField rA "observation_id" ≠ some (Val.str a)) :=
      fun hc => hc ho
    unfold set_related
    simp [hfl, List.get?, if_neg hcond]
  · intro defs store a b rA rB hab ha hb hfilt hnd hgidc hgg
    refine ⟨_, set_related_run defs hab ha hb hfilt, ?_, ?_, ?_, ?_⟩
    · refine forall2_map_self store _ _ ?_
      intro r hr
      by_cases hx : getField r "observation_id" = some (Val.str a)
      · rw [row_of_obsid_left hab hb hfilt hr hx, final_A_gid ha hgidc, ← hgg]
      · by_cases hy : getField r "observation_id" = some (Val.str b)
        · rw [row_of_obsid_right hab ha hfilt hr hy, final_B_gid hab hb hgidc]
        · rw [mergeFun_other hx hy]
    · refine forall2_map_self store _ _ ?_
      intro r _ hx hy
      exact mergeFun_other hx hy
    · intro fd hfd hcopy
      refine ⟨?_, ?_, ?_, ?_, ?_⟩
      · intro v hnull hval r' hr' hx
        rw [mem_map_row_a hab ha hb hfilt hr' hx,
            final_A_copy ha hnd hfd hcopy hnull, hval]
      · intro v hnull hval r' hr' hx
        rw [mem_map_row_b hab ha hb hfilt hr' hx,
            final_B_copy hab hb hnd hfd hcopy hnull, hval]
      · intro v hval r' hr' hx
        rw [mem_map_row_a hab ha hb hfilt hr' hx]
        exact final_A_keep ha hgidc hfd hcopy hval
      · intro v hval r' hr' hx
        rw [mem_map_row_b hab ha hb hfilt hr' hx]
        exact final_B_keep hab hb hval
      · intro hnullA hnullB r' hr'
        constructor
        · intro hx
          rw [mem_map_row_a hab ha hb hfilt hr' hx,
              final_A_copy ha hnd hfd hcopy hnullA, hnullB]
        · intro hx
          rw [mem_map_row_b hab ha hb hfilt hr' hx,
              final_B_copy hab hb hnd hfd hcopy hnullB, hnullA]
    · intro k hk hnc r' hr'
      constructor
      · intro hx
        rw [mem_map_row_a hab ha hb hfilt hr' hx]
        exact final_A_nocopy ha hk hnc
      · intro hx
        rw [mem_map_row_b hab ha hb hfilt hr' hx]
        exact final_B_nocopy hab hb hnc

/-- C3 witness: the self-merge instance raises with the store carried
unchanged; the concrete same-group pair merges successfully, every
record keeps group `"g"`, and `a`'s null `image_w` is filled with 4000
by the still-running copy pass. -/
theorem C3_self_and_same_group_behaviour_witness :
    set_related [⟨"image_w", "integer", true⟩]
      [[("observation_id", some (Val.str "a")),
        ("group_id", some (Val.str "g"))]] "a" "a" =
      Except.error (PyErr.indexError,
        [[("observation_id", some (Val.str "a")),
          ("group_id", some (Val.str "g"))]]) ∧
    (∃ store', set_related [⟨"image_w", "integer", true⟩]
      [[("observation_id", some (Val.str "a")),
        ("group_id", some (Val.str "g")), ("image_w", none)],
       [("observation_id", some (Val.str "b")),
        ("group_id", some (Val.str "g")), ("image_w", some (Val.int 4000))]]
      "a" "b" = Except.ok store' ∧
      List.Forall₂
        (fun r r' => getField r' "group_id" = getField r "group_id")
        [[("observation_id", some (Val.str "a")),
          ("group_id", some (Val.str "g")), ("image_w", none)],
         [("observation_id", some (Val.str "b")),
          ("group_id", some (Val.str "g")), ("image_w", some (Val.int 4000))]]
        store' ∧
      ∀ r' ∈ store', getField r' "observation_id" = some (Val.str "a") →
        getField r' "image_w" = some (Val.int 4000)) := by
  refine ⟨C3_self_and_same_group_behaviour.1 [⟨"image_w", "integer", true⟩]
    [[("observation_id", some (Val.str "a")),
      ("group_id", some (Val.str "g"))]] "a"
    [("observation_id", some (Val.str "a")),
     ("group_id", some (Val.str "g"))] (by decide), ?_⟩
  obtain ⟨store', hok, hgidp, hother, hcopy, hnc⟩ :=
    C3_self_and_same_group_behaviour.2 [⟨"image_w", "integer", true⟩]
      [[("observation_id", some (Val.str "a")),
        ("group_id", some (Val.str "g")), ("image_w", none)],
       [("observation_id", some (Val.str "b")),
        ("group_id", some (Val.str "g")), ("image_w", some (Val.int 4000))]]
      "a" "b"
      [("observation_id", some (Val.str "a")),
       ("group_id", some (Val.str "g")), ("image_w", none)]
      [("observation_id", some (Val.str "b")),
       ("group_id", some (Val.str "g")), ("image_w", some (Val.int 4000))]
      (by decide) (by decide) (by decide) (Or.inl (by decide))
      (by decide) (by decide) (by decide)
  refine ⟨store', hok, hgidp, ?_⟩
  intro r' hr' hx
  exact (hcopy ⟨"image_w", "integer", true⟩ (List.mem_cons_self _ _) rfl).1
    (Val.int 4000) (by decide) (by decide) r' hr' hx

/-- Projecting a header field out of a row built by zipping that header
with values recovers the value, when header names are unique. -/
theorem getField_zip_mapped {hdr : List String} (g : String → Option Val) :
    hdr.Nodup → ∀ f ∈ hdr, getField (hdr.zip (hdr.map g)) f = g f := by
  induction hdr with
  | nil => intro _ f hf; cases hf
  | cons h t ih =>
    intro hnd f hf
    rw [List.nodup_cons] at hnd
    rcases List.mem_cons.mp hf with rfl | hft
    · show getField ((f, g f) :: t.zip (t.map g)) f = g f
      simp [getField, getCell]
    · have hne : ¬ ((h : String) = f) := fun e => hnd.1 (e ▸ hft)
      show getField ((h, g h) :: t.zip (t.map g)) f = g f
      simp only [getField, getCell]
      rw [if_neg hne]
      exact ih hnd.2 f hft

/-- C7: `sqlite_to_xlsx` immediately followed by `xlsx_to_sqlite` on the
same tabular file, with no intervening mutation, reproduces the same
multiset (in fact the same sequence) of field-value tuples over the
header's fields: for every record of the old store, the new store holds
a record agreeing with it on every header field. Stated for headers that
name a subset of the store's columns, without repetition (where the
underlying SQL cannot error). -/
theorem C7_export_import_round_trip
    (store : List Row) (x : Xlsx)
    (_hne : x.header ≠ [])
    (hnd : x.header.Nodup)
    (_hcols : ∀ r ∈ store, ∀ f ∈ x.header, (getCell r f).isSome = true) :
    (((xlsx_to_sqlite (sqlite_to_xlsx store x)).map
        (fun r => x.header.map (fun f => getField r f)) : List (List (Option Val))) :
      Multiset (List (Option Val))) =
    ((store.map (fun r => x.header.map (fun f => getField r f)) :
        List (List (Option Val))) : Multiset (List (Option Val))) := by
  have hlist : (xlsx_to_sqlite (sqlite_to_xlsx store x)).map
      (fun r => x.header.map (fun f => getField r f)) =
      store.map (fun r => x.header.map (fun f => getField r f)) := by
    unfold xlsx_to_sqlite sqlite_to_xlsx
    rw [List.map_map, List.map_map]
    refine List.map_congr_left ?_
    intro r _
    show x.header.map
        (fun f => getField (x.header.zip (x.header.map (fun f2 => getField r f2))) f) =
      x.header.map (fun f => getField r f)
    refine List.map_congr_left ?_
    intro f hf
    exact getField_zip_mapped (fun f2 => getField r f2) hnd f hf
  rw [hlist]

/-- C7 witness: one concrete two-record store and a two-column header:
export then import reproduces the projected tuples. -/
theorem C7_export_import_round_trip_witness :
    (((xlsx_to_sqlite (sqlite_to_xlsx
        [[("observation_id", some (Val.str "a")), ("group_id", some (Val.str "g1")),
          ("image_w", some (Val.int 7))],
         [("observation_id", some (Val.str "b")), ("group_id", some (Val.str "g2")),
          ("image_w", none)]]
        ⟨["observation_id", "image_w"], [[some (Val.str "zzz"), none]]⟩)).map
        (fun r => ["observation_id", "image_w"].map (fun f => getField r f)) :
        List (List (Option Val))) : Multiset (List (Option Val))) =
    (([[("observation_id", some (Val.str "a")), ("group_id", some (Val.str "g1")),
        ("image_w", some (Val.int 7))],
       [("observation_id", some (Val.str "b")), ("group_id", some (Val.str "g2")),
        ("image_w", none)]].map
        (fun r => ["observation_id", "image_w"].map (fun f => getField r f)) :
        List (List (Option Val))) : Multiset (List (Option Val))) :=
  C7_export_import_round_trip
    [[("observation_id", some (Val.str "a")), ("group_id", some (Val.str "g1")),
      ("image_w", some (Val.int 7))],
     [("observation_id", some (Val.str "b")), ("group_id", some (Val.str "g2")),
      ("image_w", none)]]
    ⟨["observation_id", "image_w"], [[some (Val.str "zzz"), none]]⟩
    (by decide) (by decide) (by decide)

/-- C6: merge is idempotent in outcome: running
`set_related defs store a b` and then `set_related` again with the same
arguments on the result succeeds and leaves every record with exactly
the field values the single call produced (the second copy pass only
re-writes values that are already in place, the second `group_id`
assignment re-writes the already-assigned group). -/
theorem C6_merge_idempotent
    (defs : List FieldDef) (store store' : List Row) (a b : String)
    (rA rB : Row) (hab : a ≠ b)
    (ha : getField rA "observation_id" = some (Val.str a))
    (hb : getField rB "observation_id" = some (Val.str b))
    (hfilt : store.filter (matchRow a b) = [rA, rB] ∨
             store.filter (matchRow a b) = [rB, rA])
    (hnd : (defs.map FieldDef.name).Nodup)
    (hgid : NoGidCopy defs)
    (hrun : set_related defs store a b = Except.ok store') :
    ∃ store'', set_related defs store' a b = Except.ok store'' ∧
      List.Forall₂ (fun r1 r2 => ∀ k, getField r2 k = getField r1 k)
        store' store'' := by
  have hOA : getField rA "observation_id" ≠ none := ha ▸ Option.some_ne_none _
  have hOB : getField rB "observation_id" ≠ none := hb ▸ Option.some_ne_none _
  have hmap : store' = store.map (mergeFun defs rA rB a b) := by
    have h2 := set_related_run defs hab ha hb hfilt
    rw [hrun] at h2
    exact Except.ok.inj h2
  subst hmap
  set F := mergeFun defs rA rB a b with hF
  have ha2 : getField (F rA) "observation_id" = some (Val.str a) := by
    rw [hF, mergeFun_obsid hOA hOB rA]; exact ha
  have hb2 : getField (F rB) "observation_id" = some (Val.str b) := by
    rw [hF, mergeFun_obsid hOA hOB rB]; exact hb
  have hfiltmap : (store.map F).filter (matchRow a b) =
      (store.filter (matchRow a b)).map F := by
    rw [List.filter_map]
    congr 1
    refine List.filter_congr ?_
    intro r _
    show matchRow a b (F r) = matchRow a b r
    unfold matchRow
    rw [hF, mergeFun_obsid hOA hOB r]
  have hfilt2 : (store.map F).filter (matchRow a b) = [F rA, F rB] ∨
      (store.map F).filter (matchRow a b) = [F rB, F rA] := by
    rcases hfilt with h | h
    · exact Or.inl (by rw [hfiltmap, h]; rfl)
    · exact Or.inr (by rw [hfiltmap, h]; rfl)
  refine ⟨_, set_related_run defs hab ha2 hb2 hfilt2, ?_⟩
  refine forall2_map_self _ _ _ ?_
  intro r' hr'
  -- value facts about the once-merged records
  have hgA : getField (F rA) "group_id" = getField rB "group_id" := by
    rw [hF]; exact final_A_gid ha hgid
  have hgB : getField (F rB) "group_id" = getField rB "group_id" := by
    rw [hF]; exact final_B_gid hab hb hgid
  by_cases hx : getField r' "observation_id" = some (Val.str a)
  · have hrA' : r' = F rA := mem_map_row_a hab ha hb hfilt hr' hx
    subst hrA'
    intro k
    rw [mergeFun_at_A ha2]
    have hsf : ∀ k2, getField
        (setField (F rA) "group_id" (getField (F rB) "group_id")) k2 =
        getField (F rA) k2 :=
      getField_setField_pointwise (by rw [hgA, hgB])
    refine (getField_setFields_pointwise ?_ k).trans (hsf k)
    rintro ⟨k2, v2⟩ hp
    rcases mem_copyUpdates.mp hp with ⟨fd, hfd, hname, hcopy, hnullA2, hv⟩
    have hBnone : getField (F rB) k2 = none := by
      by_cases hrAv : getField rA k2 = none
      · by_cases hrBv : getField rB k2 = none
        · have hmem : (k2, getField rA k2) ∈ copyUpdates defs rA rB :=
            mem_copyUpdates.mpr ⟨fd, hfd, hname, hcopy, hrBv, rfl⟩
          rw [hF, mergeFun_at_B hab hb,
              getField_setFields_mem (copyUpdates_keys_nodup rA rB hnd) hmem,
              hrAv]
        · exfalso
          have hcp := @final_A_copy defs rA rB a b ha hnd fd
            hfd hcopy (hname ▸ hrAv)
          rw [hname] at hcp
          rw [hF] at hnullA2
          rw [hcp] at hnullA2
          exact hrBv hnullA2
      · exfalso
        obtain ⟨w, hw⟩ := Option.ne_none_iff_exists'.mp hrAv
        have hkp := @final_A_keep defs rA rB a b ha hgid fd
          hfd hcopy w (hname ▸ hw)
        rw [hname] at hkp
        rw [hF] at hnullA2
        rw [hkp] at hnullA2
        cases hnullA2
    rw [hsf k2, hnullA2, hv, hBnone]
  · by_cases hy : getField r' "observation_id" = some (Val.str b)
    · have hrB' : r' = F rB := mem_map_row_b hab ha hb hfilt hr' hy
      subst hrB'
      intro k
      rw [mergeFun_at_B hab hb2]
      refine getField_setFields_pointwise ?_ k
      rintro ⟨k2, v2⟩ hp
      rcases mem_copyUpdates.mp hp with ⟨fd, hfd, hname, hcopy, hnullB2, hv⟩
      have hAnone : getField (F rA) k2 = none := by
        by_cases hrBv : getField rB k2 = none
        · have hmem : (k2, getField rA k2) ∈ copyUpdates defs rA rB :=
            mem_copyUpdates.mpr ⟨fd, hfd, hname, hcopy, hrBv, rfl⟩
          have hBeq : getField (F rB) k2 = getField rA k2 := by
            rw [hF, mergeFun_at_B hab hb]
            exact getField_setFields_mem (copyUpdates_keys_nodup rA rB hnd)
              hmem _
          have hrAv : getField rA k2 = none := by
            rw [← hBeq]; exact hnullB2
          have hcp := @final_A_copy defs rA rB a b ha hnd fd
            hfd hcopy (hname ▸ hrAv)
          rw [hname] at hcp
          rw [hF, hcp, hrBv]
        · exfalso
          obtain ⟨w, hw⟩ := Option.ne_none_iff_exists'.mp hrBv
          have hkp := @final_B_keep defs rA rB a b
            hab hb fd w (hname ▸ hw)
          rw [hname] at hkp
          rw [hF] at hnullB2
          rw [hkp] at hnullB2
          cases hnullB2
      rw [hnullB2, hv, hAnone]
    · intro k
      rw [mergeFun_other hx hy]

/-- C6 witness: on the concrete two-record store of C1's witness, the
second identical merge call succeeds and changes no field value of any
record. -/
theorem C6_merge_idempotent_witness :
    ∃ store2, set_related [⟨"image_w", "integer", true⟩]
      [[("observation_id", some (Val.str "a")),
        ("group_id", some (Val.str "g2")), ("image_w", some (Val.int 4000))],
       [("observation_id", some (Val.str "b")),
        ("group_id", some (Val.str "g2")), ("image_w", some (Val.int 4000))]]
      "a" "b" = Except.ok store2 ∧
      List.Forall₂ (fun r1 r2 => ∀ k, getField r2 k = getField r1 k)
        [[("observation_id", some (Val.str "a")),
          ("group_id", some (Val.str "g2")), ("image_w", some (Val.int 4000))],
         [("observation_id", some (Val.str "b")),
          ("group_id", some (Val.str "g2")), ("image_w", some (Val.int 4000))]]
        store2 :=
  C6_merge_idempotent [⟨"image_w", "integer", true⟩]
    [[("observation_id", some (Val.str "a")),
      ("group_id", some (Val.str "g1")), ("image_w", none)],
     [("observation_id", some (Val.str "b")),
      ("group_id", some (Val.str "g2")), ("image_w", some (Val.int 4000))]]
    [[("observation_id", some (Val.str "a")),
      ("group_id", some (Val.str "g2")), ("image_w", some (Val.int 4000))],
     [("observation_id", some (Val.str "b")),
      ("group_id", some (Val.str "g2")), ("image_w", some (Val.int 4000))]]
    "a" "b"
    [("observation_id", some (Val.str "a")),
     ("group_id", some (Val.str "g1")), ("image_w", none)]
    [("observation_id", some (Val.str "b")),
     ("group_id", some (Val.str "g2")), ("image_w", some (Val.int 4000))]
    (by decide) (by decide) (by decide) (Or.inl (by decide))
    (by decide) (by decide) (by decide)

/-! ### Group-closure invariant machinery -/

theorem mem_of_get?_ite_rev {l : List Row} {c : Prop} [Decidable c]
    {n : Nat} {r : Row}
    (h : (if c then l.reverse else l).get? n = some r) : r ∈ l := by
  split at h
  · exact List.mem_reverse.mp (List.get?_mem h)
  · exact List.get?_mem h

/-- A successful `set_related` call - whatever the store looks like -
runs `mergeSteps` on two fetched rows of the store. -/
theorem set_related_ok_shape {defs : List FieldDef} {store s' : List Row}
    {a b : String}
    (hok : set_related defs store a b = Except.ok s') :
    ∃ r0 r1, r0 ∈ store ∧ r1 ∈ store ∧
      s' = mergeSteps defs store r0 r1 := by
  unfold set_related at hok
  cases h0 : (store.filter (matchRow a b)).get? 0 with
  | none => simp only [h0] at hok; exact Except.noConfusion hok
  | some o0 =>
    simp only [h0] at hok
    cases h1 : (if getField o0 "observation_id" ≠ some (Val.str a)
        then (store.filter (matchRow a b)).reverse
        else store.filter (matchRow a b)).get? 0 with
    | none => simp only [h1] at hok; exact Except.noConfusion hok
    | some r0 =>
      cases h2 : (if getField o0 "observation_id" ≠ some (Val.str a)
          then (store.filter (matchRow a b)).reverse
          else store.filter (matchRow a b)).get? 1 with
      | none => simp only [h1, h2] at hok; exact Except.noConfusion hok
      | some r1 =>
        simp only [h1, h2] at hok
        refine ⟨r0, r1,
          (@List.filter_sublist _ (matchRow a b) store).subset
            (mem_of_get?_ite_rev h1),
          (@List.filter_sublist _ (matchRow a b) store).subset
            (mem_of_get?_ite_rev h2),
          (Except.ok.inj hok).symm⟩

/-- A raising `set_related` call carries the input store unchanged. -/
theorem set_related_error_store {defs : List FieldDef} {store : List Row}
    {a b : String} {e : PyErr × List Row}
    (herr : set_related defs store a b = Except.error e) : e.2 = store := by
  unfold set_related at herr
  cases h0 : (store.filter (matchRow a b)).get? 0 with
  | none =>
    simp only [h0] at herr
    rw [← Except.error.inj herr]
  | some o0 =>
    simp only [h0] at herr
    cases h1 : (if getField o0 "observation_id" ≠ some (Val.str a)
        then (store.filter (matchRow a b)).reverse
        else store.filter (matchRow a b)).get? 0 with
    | none =>
      simp only [h1] at herr
      rw [← Except.error.inj herr]
    | some r0 =>
      cases h2 : (if getField o0 "observation_id" ≠ some (Val.str a)
          then (store.filter (matchRow a b)).reverse
          else store.filter (matchRow a b)).get? 1 with
      | none =>
        simp only [h1, h2] at herr
        rw [← Except.error.inj herr]
      | some r1 =>
        simp only [h1, h2] at herr
        exact Except.noConfusion herr

theorem getField_setFields_ne_none {ups : List (String × Option Val)}
    {k : String} (hv : ∀ v, (k, v) ∈ ups → v ≠ none) {r : Row}
    (hr : getField r k ≠ none) :
    getField (setFields r ups) k ≠ none := by
  induction ups generalizing r with
  | nil => exact hr
  | cons p ups ih =>
    rcases p with ⟨k0, v0⟩
    show getField (setFields (setField r k0 v0) ups) k ≠ none
    refine ih (fun v hv2 => hv v (List.mem_cons_of_mem _ hv2)) ?_
    by_cases hk : k0 = k
    · subst hk
      rw [getField_setField_self]
      exact hv v0 (List.mem_cons_self _ _)
    · rw [getField_setField_ne _ _ _ (fun e => hk e.symm)]
      exact hr

theorem GroupIdInv_updateWhere {store : List Row} {w : Option Val}
    {ups : List (String × Option Val)} (hinv : GroupIdInv store)
    (hv : ∀ v, ("group_id", v) ∈ ups → v ≠ none) :
    GroupIdInv (updateWhere store w ups) := by
  intro r' hr'
  unfold updateWhere at hr'
  rcases List.mem_map.mp hr' with ⟨r, hr, hEq⟩
  rw [← hEq]
  by_cases hc : sqlEq (getField r "observation_id") w = true
  · rw [if_pos hc]
    exact getField_setFields_ne_none hv (hinv r hr)
  · rw [if_neg hc]
    exact hinv r hr

theorem GroupIdInv_mergeSteps {defs : List FieldDef} {store : List Row}
    {r0 r1 : Row} (hinv : GroupIdInv store) (h0 : r0 ∈ store)
    (h1 : r1 ∈ store) :
    GroupIdInv (mergeSteps defs store r0 r1) := by
  unfold mergeSteps
  simp only [ite_isEmpty_updateWhere]
  refine GroupIdInv_updateWhere (GroupIdInv_updateWhere
    (GroupIdInv_updateWhere hinv ?_) ?_) ?_
  · intro v hvm
    have hv2 : v = getField r1 "group_id" :=
      congrArg Prod.snd (List.mem_singleton.mp hvm)
    rw [hv2]
    exact hinv r1 h1
  · intro v hvm
    rcases mem_copyUpdates.mp hvm with ⟨fd, _, _, _, hnull, _⟩
    exact absurd hnull (hinv r1 h1)
  · intro v hvm
    rcases mem_copyUpdates.mp hvm with ⟨fd, _, _, _, hnull, _⟩
    exact absurd hnull (hinv r0 h0)

theorem mkRow_group_id (env : String → ImgInfo) (p : String) :
    getField (mkRow env p) "group_id" = some (Val.str (env p).groupUuid) := by
  rfl

theorem mkRow_group_number (env : String → ImgInfo) (p : String) :
    getField (mkRow env p) "group_number" = some (Val.int 1) := by
  rfl

/-- Every row of the post-ingestion store is an old row or a freshly
built row of one of the given paths. -/
theorem add_images_store_mem {env : String → ImgInfo} {paths : List String}
    {store : List Row} :
    ∀ r' ∈ (add_images env store paths).1,
      r' ∈ store ∨ ∃ p ∈ paths, r' = mkRow env p := by
  induction paths generalizing store with
  | nil => exact fun r' hr' => Or.inl hr'
  | cons p paths ih =>
    intro r' hr'
    have hstep : (add_images env store (p :: paths)).1 =
        (add_images env (if store.any (fun r =>
            sqlEq (getField r "image_path") (some (Val.str p)))
          then store else store ++ [mkRow env p]) paths).1 := rfl
    rw [hstep] at hr'
    rcases ih r' hr' with hmem | ⟨q, hq, hEq⟩
    · by_cases hc : store.any (fun r =>
          sqlEq (getField r "image_path") (some (Val.str p))) = true
      · rw [if_pos hc] at hmem
        exact Or.inl hmem
      · rw [if_neg hc] at hmem
        rcases List.mem_append.mp hmem with hmem2 | hmem2
        · exact Or.inl hmem2
        · exact Or.inr ⟨p, List.mem_cons_self _ _,
            List.mem_singleton.mp hmem2⟩
    · exact Or.inr ⟨q, List.mem_cons_of_mem _ hq, hEq⟩

theorem GroupIdInv_add_images {env : String → ImgInfo} {store : List Row}
    {paths : List String} (hinv : GroupIdInv store) :
    GroupIdInv (add_images env store paths).1 := by
  intro r' hr'
  rcases add_images_store_mem r' hr' with h | ⟨p, _, hEq⟩
  · exact hinv r' h
  · rw [hEq, mkRow_group_id]
    exact Option.some_ne_none _

theorem GroupIdInv_applyOp {store : List Row} {op : Op}
    (hinv : GroupIdInv store) : GroupIdInv (applyOp store op) := by
  cases op with
  | add env paths => exact GroupIdInv_add_images hinv
  | merge defs a b =>
    show GroupIdInv (match set_related defs store a b with
      | Except.ok s => s
      | Except.error e => e.2)
    cases hres : set_related defs store a b with
    | ok s =>
      rcases set_related_ok_shape hres with ⟨r0, r1, h0, h1, hEq⟩
      show GroupIdInv s
      rw [hEq]
      exact GroupIdInv_mergeSteps hinv h0 h1
    | error e =>
      show GroupIdInv e.2
      rw [set_related_error_store hres]
      exact hinv
  | ungroup obsId fresh =>
    refine GroupIdInv_updateWhere hinv ?_
    intro v hvm
    have hv2 : v = some (Val.str fresh) :=
      congrArg Prod.snd (List.mem_singleton.mp hvm)
    rw [hv2]
    exact Option.some_ne_none _

theorem GroupIdInv_applyOps {store : List Row} (ops : List Op)
    (hinv : GroupIdInv store) : GroupIdInv (applyOps store ops) := by
  induction ops generalizing store with
  | nil => exact hinv
  | cons op ops ih => exact ih (GroupIdInv_applyOp hinv)

/-- C8: group closure. (1) After any sequence of ingestions, merges and
ungroupings starting from an ingested store, every record's `group_id`
is non-null. (2) `unset_related` gives the targeted record the freshly
generated `group_id`, which - `uuid4` freshness being the hypothesis -
no other record in the store holds, before or after. (3) Every newly
ingested record is a singleton group: it carries its own fresh
`group_id` (shared with no pre-existing record and no other ingested
path, under uuid freshness) and `group_number` 1. -/
theorem C8_group_closure :
    (∀ (env : String → ImgInfo) (paths : List String) (ops : List Op),
      GroupIdInv (applyOps (add_images env [] paths).1 ops)) ∧
    (∀ (store : List Row) (obsId fresh : String),
      (∀ r ∈ store, getField r "group_id" ≠ some (Val.str fresh)) →
      ∀ r' ∈ unset_related store obsId fresh,
        (getField r' "observation_id" = some (Val.str obsId) →
          getField r' "group_id" = some (Val.str fresh)) ∧
        (getField r' "observation_id" ≠ some (Val.str obsId) →
          getField r' "group_id" ≠ some (Val.str fresh))) ∧
    (∀ (env : String → ImgInfo) (store : List Row) (paths : List String),
      (∀ r ∈ store, ∀ p ∈ paths,
        getField r "group_id" ≠ some (Val.str (env p).groupUuid)) →
      (∀ p ∈ paths, ∀ q ∈ paths, p ≠ q →
        (env p).groupUuid ≠ (env q).groupUuid) →
      ∀ p ∈ paths, ∀ r' ∈ (add_images env store paths).1,
        getField r' "group_id" = some (Val.str (env p).groupUuid) →
          r' = mkRow env p ∧
          getField r' "group_number" = some (Val.int 1)) := by
  refine ⟨?_, ?_, ?_⟩
  · intro env paths ops
    refine GroupIdInv_applyOps ops (GroupIdInv_add_images ?_)
    intro r hr
    cases hr
  · intro store obsId fresh hfresh r' hr'
    unfold unset_related updateWhere at hr'
    rcases List.mem_map.mp hr' with ⟨r, hr, hEq⟩
    by_cases hc : sqlEq (getField r "observation_id")
        (some (Val.str obsId)) = true
    · rw [if_pos hc] at hEq
      have hgid2 : getField r' "group_id" = some (Val.str fresh) := by
        rw [← hEq]
        show getField (setField r "group_id" (some (Val.str fresh)))
          "group_id" = some (Val.str fresh)
        exact getField_setField_self r "group_id" (some (Val.str fresh))
      have hoid : getField r' "observation_id" = some (Val.str obsId) := by
        rw [← hEq]
        show getField (setField r "group_id" (some (Val.str fresh)))
          "observation_id" = some (Val.str obsId)
        rw [getField_setField_ne _ _ _ (by decide)]
        exact sqlEq_some_iff.mp hc
      exact ⟨fun _ => hgid2, fun hx => absurd hoid hx⟩
    · rw [if_neg hc] at hEq
      subst hEq
      have hoid : getField r "observation_id" ≠ some (Val.str obsId) :=
        fun e => hc (sqlEq_some_iff.mpr e)
      exact ⟨fun hx => absurd hx hoid, fun _ => hfresh r hr⟩
  · intro env store paths hfresh hinj p hp r' hr' hgid2
    rcases add_images_store_mem r' hr' with hmem | ⟨q, hq, hEq⟩
    · exact absurd hgid2 (hfresh r' hmem p hp)
    · subst hEq
      rw [mkRow_group_id] at hgid2
      have huuid : (env q).groupUuid = (env p).groupUuid :=
        Val.str.inj (Option.some.inj hgid2)
      by_cases hpq : q = p
      · subst hpq
        exact ⟨rfl, mkRow_group_number env q⟩
      · exact absurd huuid (hinj q hq p hp hpq)

/-- C8 witness: ingesting `"a.jpg"` into an empty store and then
ungrouping keeps every `group_id` non-null; a concrete ungroup writes
the fresh id `"f9"` onto the targeted record while the other records
keep ids other than `"f9"`; the concrete ingested row is its own
singleton group with `group_number` 1. -/
theorem C8_group_closure_witness :
    GroupIdInv (applyOps (add_images
      (fun _ => ⟨"a.jpg", 3, "2021:01:02 03:04:05", Val.int 10, Val.int 20,
        "h77", "obs1", "grp1"⟩) [] ["a.jpg"]).1
      [Op.ungroup "obs1" "grp9"]) ∧
    getField [("observation_id", some (Val.str "x")),
      ("group_id", some (Val.str "f9"))] "group_id" =
      some (Val.str "f9") ∧
    getField (mkRow (fun _ => ⟨"a.jpg", 3, "2021:01:02 03:04:05",
      Val.int 10, Val.int 20, "h77", "obs1", "grp1"⟩) "a.jpg")
      "group_number" = some (Val.int 1) := by
  refine ⟨C8_group_closure.1 _ _ _, ?_, ?_⟩
  · exact ((C8_group_closure.2.1
      [[("observation_id", some (Val.str "x")),
        ("group_id", some (Val.str "g"))]] "x" "f9"
      (by decide)
      [("observation_id", some (Val.str "x")),
       ("group_id", some (Val.str "f9"))] (by decide)).1 (by decide))
  · exact ((C8_group_closure.2.2
      (fun _ => ⟨"a.jpg", 3, "2021:01:02 03:04:05", Val.int 10, Val.int 20,
        "h77", "obs1", "grp1"⟩) [] ["a.jpg"]
      (by decide) (by decide) "a.jpg" (by decide) _ (by decide))
      (by decide)).2

end Monexif
